import Mathlib

/-!
Verification of the HACCP stock-tracking application (src/App.tsx,
src/types.ts).  The development shallowly embeds the item data model, the
lifecycle engine (updateItemStatus, restoreItem), the urgency classifier
(isExpired, isUrgent), the reception-form logic (handleFileChange merge,
handleSubmit) and the persistence round trip (JSON save / load), and proves
the testable properties of the specification about them.

Timestamps that the code produces with new Date().toISOString() are modelled
as opaque strings, matching the `openedAt : string` / `finishedAt : string`
fields of the source.  Calendar dates used by the urgency classifier are
modelled at day granularity as integers (days since the Unix epoch), with
the millisecond arithmetic of the source carried out explicitly.
-/

/-- Lifecycle status of a stock item, from src/types.ts
(`type ItemStatus = sealed | opened | finished | discarded`). -/
inductive ItemStatus where
  | sealed
  | opened
  | finished
  | discarded
deriving DecidableEq, Repr

/-- Inventory item, from the `InventoryItem` interface of src/types.ts.
Optional fields of the interface become `Option` fields; the numeric
`receptionTemp` is modelled as an integer. -/
structure InventoryItem where
  id : String
  name : String
  category : String
  expiryDate : String
  receptionDate : String
  receptionTemp : Int
  lotNumber : Option String
  status : ItemStatus
  imageUrl : Option String
  openedAt : Option String
  finishedAt : Option String
deriving DecidableEq, Repr

/-- Per-item body of `updateItemStatus` (src/App.tsx lines 284-299): the
requested status is written, `openedAt` is set on a transition to `opened`,
cleared on a transition to `sealed`, and `finishedAt` is set on a transition
to `finished` or `discarded`. -/
def updateItemStatus (item : InventoryItem) (newStatus : ItemStatus)
    (now : String) : InventoryItem :=
  match newStatus with
  | .opened => { item with status := newStatus, openedAt := some now }
  | .sealed => { item with status := newStatus, openedAt := none }
  | .finished => { item with status := newStatus, finishedAt := some now }
  | .discarded => { item with status := newStatus, finishedAt := some now }

/-- Per-item body of `restoreItem` (src/App.tsx lines 301-315): revert to
`opened` when the item had been opened before, otherwise to `sealed`, and
clear `finishedAt`. -/
def restoreItem (item : InventoryItem) : InventoryItem :=
  { item with
    status := if item.openedAt.isSome then .opened else .sealed,
    finishedAt := none }

/-- A status-transition operation on one item: either `updateItemStatus`
with a requested status (and the timestamp the code reads from the clock),
or `restoreItem`. -/
inductive StockOp where
  | setStatus (s : ItemStatus) (now : String)
  | restore
deriving DecidableEq, Repr

/-- Apply one operation to an item. -/
def applyOp (item : InventoryItem) : StockOp → InventoryItem
  | .setStatus s now => updateItemStatus item s now
  | .restore => restoreItem item

/-- Apply a sequence of operations to an item, first operation first. -/
def runOps (item : InventoryItem) (ops : List StockOp) : InventoryItem :=
  ops.foldl applyOp item

/-- The data-model invariant of the specification: `finishedAt` is present
if and only if the status is `finished` or `discarded`. -/
def finishedInv (item : InventoryItem) : Prop :=
  item.finishedAt.isSome = true ↔
    (item.status = .finished ∨ item.status = .discarded)

instance (item : InventoryItem) : Decidable (finishedInv item) := by
  unfold finishedInv; infer_instance

/-- Guard describing the transitions the UI can actually issue: the
inventory view calls `updateItemStatus` only for items it displays, and it
displays only items whose status is `sealed` or `opened`; `restoreItem`
(offered by the history view) is allowed in any state. -/
def guardOk (item : InventoryItem) : StockOp → Bool
  | .setStatus _ _ =>
      match item.status with
      | .sealed => true
      | .opened => true
      | _ => false
  | .restore => true

/-- A run is guarded when every operation in it satisfies `guardOk` in the
state it is applied to. -/
def guardedRun (item : InventoryItem) : List StockOp → Bool
  | [] => true
  | op :: rest => guardOk item op && guardedRun (applyOp item op) rest

lemma updateItemStatus_finishedAt (item : InventoryItem) (s : ItemStatus)
    (now : String) :
    (updateItemStatus item s now).finishedAt =
      (match s with
       | .finished => some now
       | .discarded => some now
       | _ => item.finishedAt) := by
  cases s <;> rfl

lemma updateItemStatus_status (item : InventoryItem) (s : ItemStatus)
    (now : String) : (updateItemStatus item s now).status = s := by
  cases s <;> rfl

lemma restoreItem_status_not_closed (item : InventoryItem) :
    ¬((restoreItem item).status = .finished ∨
      (restoreItem item).status = .discarded) := by
  simp only [restoreItem]
  cases h : item.openedAt.isSome <;> simp

lemma finishedInv_step (item : InventoryItem) (op : StockOp)
    (hinv : finishedInv item) (hok : guardOk item op = true) :
    finishedInv (applyOp item op) := by
  cases op with
  | restore =>
      constructor
      · intro h
        simp [applyOp, restoreItem] at h
      · intro h
        exact absurd h (restoreItem_status_not_closed item)
  | setStatus s now =>
      have hopen : item.status = .sealed ∨ item.status = .opened := by
        simp only [guardOk] at hok
        cases h : item.status <;> simp [h] at hok ⊢
      have hfin : item.finishedAt = none := by
        rcases hopen with h | h <;>
          [skip; skip] <;>
          { rw [Option.eq_none_iff_forall_not_mem]
            intro a ha
            have : item.finishedAt.isSome = true := by
              simp [Option.isSome_iff_exists]; exact ⟨a, ha⟩
            rcases hinv.mp this with hc | hc <;> rw [h] at hc <;> cases hc }
      cases s <;>
        simp [applyOp, finishedInv, updateItemStatus, hfin]

lemma finishedInv_runOps (ops : List StockOp) (item : InventoryItem)
    (hinv : finishedInv item) (hrun : guardedRun item ops = true) :
    finishedInv (runOps item ops) := by
  induction ops generalizing item with
  | nil => exact hinv
  | cons op rest ih =>
      simp only [guardedRun, Bool.and_eq_true] at hrun
      have hstep := finishedInv_step item op hinv hrun.1
      have : runOps item (op :: rest) = runOps (applyOp item op) rest := rfl
      rw [this]
      exact ih (applyOp item op) hstep hrun.2

/-- Milliseconds per day, the constant `1000 * 3600 * 24` of the source. -/
def msPerDay : Int := 1000 * 3600 * 24

/-- Ceiling division of integers, the `Math.ceil(a / b)` of the source for a
positive divisor `b`: the ceiling of the rational quotient, expressed through
floor division. -/
def ceilDivInt (a b : Int) : Int := -((-a).fdiv b)

/-- The `isExpired` helper (src/App.tsx lines 752-758).  Both dates have
been truncated to day granularity with `setHours(0,0,0,0)`, so a date is an
integer day number and its `getTime()` is the day number times `msPerDay`;
the item is expired when the expiry timestamp is strictly before the current
one. -/
def isExpired (expiryDay nowDay : Int) : Bool :=
  decide (expiryDay * msPerDay < nowDay * msPerDay)

/-- The `isUrgent` helper (src/App.tsx lines 760-767): the difference of the
two day-truncated timestamps is divided by `msPerDay` and rounded up, and
the item is urgent when this day count lies between 0 and the threshold. -/
def isUrgent (expiryDay nowDay threshold : Int) : Bool :=
  let diffDays := ceilDivInt (expiryDay * msPerDay - nowDay * msPerDay) msPerDay
  decide (diffDays ≤ threshold) && decide (0 ≤ diffDays)

/-- Three-way urgency classification.  The inventory view renders the
expired state with priority over the urgent one
(`expired ? ... : urgent ? ... : ...`, src/App.tsx line 435). -/
inductive Urgency where
  | expired
  | urgent
  | normal
deriving DecidableEq, Repr

/-- Classifier combining the two helpers in rendering order. -/
def classify (expiryDay nowDay threshold : Int) : Urgency :=
  if isExpired expiryDay nowDay then .expired
  else if isUrgent expiryDay nowDay threshold then .urgent
  else .normal

lemma ceilDivInt_mul_self (k m : Int) (hm : m ≠ 0) :
    ceilDivInt (k * m) m = k := by
  unfold ceilDivInt
  rw [show -(k * m) = -k * m by ring, Int.mul_fdiv_cancel _ hm, neg_neg]

lemma msPerDay_pos : (0 : Int) < msPerDay := by decide

lemma isExpired_iff (e n : Int) : isExpired e n = true ↔ e < n := by
  unfold isExpired
  rw [decide_eq_true_iff]
  exact mul_lt_mul_right msPerDay_pos

lemma isUrgent_iff (e n t : Int) :
    isUrgent e n t = true ↔ (0 ≤ e - n ∧ e - n ≤ t) := by
  unfold isUrgent
  rw [show e * msPerDay - n * msPerDay = (e - n) * msPerDay by ring,
    ceilDivInt_mul_self _ _ (by decide)]
  simp only [Bool.and_eq_true, decide_eq_true_iff]
  tauto

lemma classify_expired_iff (e n t : Int) :
    classify e n t = .expired ↔ e < n := by
  unfold classify
  constructor
  · intro h
    by_cases hx : isExpired e n = true
    · exact (isExpired_iff e n).mp hx
    · rw [Bool.not_eq_true] at hx
      rw [hx] at h
      simp only [Bool.false_eq_true, if_false] at h
      split at h <;> cases h
  · intro h
    rw [if_pos ((isExpired_iff e n).mpr h)]

lemma classify_urgent_iff (e n t : Int) :
    classify e n t = .urgent ↔ (0 ≤ e - n ∧ e - n ≤ t) := by
  unfold classify
  constructor
  · intro h
    by_cases hx : isExpired e n = true
    · rw [if_pos hx] at h; cases h
    · rw [Bool.not_eq_true] at hx
      rw [hx] at h
      simp only [Bool.false_eq_true, if_false] at h
      by_cases hu : isUrgent e n t = true
      · exact (isUrgent_iff e n t).mp hu
      · rw [Bool.not_eq_true] at hu
        rw [hu] at h
        simp at h
  · intro h
    have hx : isExpired e n = false := by
      rw [← Bool.not_eq_true, isExpired_iff]
      omega
    rw [hx]
    simp only [Bool.false_eq_true, if_false]
    rw [if_pos ((isUrgent_iff e n t).mpr h)]

lemma classify_normal_iff (e n t : Int) :
    classify e n t = .normal ↔ ¬(e < n) ∧ ¬(0 ≤ e - n ∧ e - n ≤ t) := by
  constructor
  · intro h
    refine ⟨fun hc => ?_, fun hc => ?_⟩
    · rw [← classify_expired_iff e n t] at hc
      rw [h] at hc; cases hc
    · rw [← classify_urgent_iff e n t] at hc
      rw [h] at hc; cases hc
  · intro ⟨h1, h2⟩
    unfold classify
    rw [show isExpired e n = false by rw [← Bool.not_eq_true, isExpired_iff]; exact h1]
    rw [show isUrgent e n t = false by rw [← Bool.not_eq_true, isUrgent_iff]; exact h2]
    rfl

/-- Conversion of a civil date to a day number (days since 1970-01-01),
modelling how `new Date("YYYY-MM-DD")` followed by `setHours(0,0,0,0)`
identifies a calendar day.  Standard civil-from-days algorithm with floor
division. -/
def daysFromCivil (y m d : Int) : Int :=
  let yy := if m ≤ 2 then y - 1 else y
  let era := yy.fdiv 400
  let yoe := yy - era * 400
  let mp := if m > 2 then m - 3 else m + 9
  let doy := (153 * mp + 2).fdiv 5 + d - 1
  let doe := yoe * 365 + yoe.fdiv 4 - yoe.fdiv 100 + doy
  era * 146097 + doe - 719468

example : daysFromCivil 1970 1 1 = 0 := by decide
example : daysFromCivil 2024 1 5 = 19727 := by decide
example : daysFromCivil 2024 1 6 = 19728 := by decide

/-- Reception-form state (src/App.tsx lines 523-530): the fields the form
holds, all initialised to defaults. -/
structure FormData where
  name : String
  category : String
  expiryDate : String
  receptionDate : String
  receptionTemp : Int
  lotNumber : String
deriving DecidableEq, Repr

/-- Result of the label-extraction adapter.  The adapter returns a partial
record: a field is absent (`none`) or holds a string that may still be
empty; both are falsy to the merge in the caller. -/
structure ExtractionResult where
  name : Option String
  expiryDate : Option String
  lotNumber : Option String
  category : Option String
deriving DecidableEq, Repr

/-- The JavaScript `r || p` fallback on an optional string: the previous
value is kept when the extracted field is absent or empty. -/
def jsOrStr (r : Option String) (p : String) : String :=
  match r with
  | none => p
  | some s => if s = "" then p else s

/-- A field of an extraction result counts as populated when it is present
and not the empty string. -/
def populated (r : Option String) : Bool :=
  match r with
  | none => false
  | some s => !(s == "")

/-- The merge performed by `handleFileChange` (src/App.tsx lines 539-555):
each of name, category, lotNumber and expiryDate falls back to the previous
form value when the extracted field is not populated; the other form fields
are untouched. -/
def mergeExtraction (prev : FormData) (r : ExtractionResult) : FormData :=
  { prev with
    name := jsOrStr r.name prev.name,
    category := jsOrStr r.category prev.category,
    lotNumber := jsOrStr r.lotNumber prev.lotNumber,
    expiryDate := jsOrStr r.expiryDate prev.expiryDate }

lemma jsOrStr_eq_ite (r : Option String) (p : String) :
    jsOrStr r p = if populated r = true then r.getD "" else p := by
  cases r with
  | none => rfl
  | some s =>
      by_cases h : s = "" <;>
        simp [jsOrStr, populated, h]

/-- The item built by `handleSubmit` (src/App.tsx lines 561-571) on the
accepting path: a fresh id, the form fields, reception date and temperature
with their JavaScript falsy fallbacks, status `sealed`, and the captured
image when one exists. -/
def mkSubmittedItem (form : FormData) (newId now : String)
    (tempImage : Option String) : InventoryItem :=
  { id := newId
    name := form.name
    category := form.category
    expiryDate := form.expiryDate
    receptionDate := if form.receptionDate = "" then now else form.receptionDate
    receptionTemp := if form.receptionTemp = 0 then 4 else form.receptionTemp
    lotNumber := some form.lotNumber
    status := .sealed
    imageUrl := tempImage
    openedAt := none
    finishedAt := none }

/-- The `handleSubmit` handler (src/App.tsx lines 558-572): when name or
expiry date is empty the submission is rejected with an alert message and
the store is left alone; otherwise the new item is prepended to the store.
The result pairs the store after the call with the alert message, if any. -/
def handleSubmit (form : FormData) (tempImage : Option String)
    (store : List InventoryItem) (newId now : String) :
    List InventoryItem × Option String :=
  if form.name = "" ∨ form.expiryDate = "" then
    (store, some "Nom et DLC obligatoires.")
  else
    (mkSubmittedItem form newId now tempImage :: store, none)

/-- Day count until expiry as computed by `urgentItems` (src/App.tsx lines
256-265): ceiling of the difference between the raw expiry timestamp and the
raw current timestamp, in days.  Unlike the classifier helpers, neither
timestamp is truncated here. -/
def diffDaysRaw (expiryTime now : Int) : Int :=
  ceilDivInt (expiryTime - now) msPerDay

/-- The `urgentItems` filter (src/App.tsx lines 256-265): drop finished and
discarded items, keep those whose day count until expiry is at most the
threshold.  The timestamp an expiry-date string denotes is supplied by the
interpretation `toTime`, standing for `new Date(s).getTime()`. -/
def urgentItems (toTime : String → Int) (items : List InventoryItem)
    (now threshold : Int) : List InventoryItem :=
  items.filter fun item =>
    if item.status = .finished ∨ item.status = .discarded then false
    else decide (diffDaysRaw (toTime item.expiryDate) now ≤ threshold)

/-- JSON values, the persisted form produced by `JSON.stringify` and read
back by `JSON.parse` (src/App.tsx lines 237-241 and 253). -/
inductive Json where
  | null
  | bool (b : Bool)
  | num (n : Int)
  | str (s : String)
  | arr (xs : List Json)
  | obj (fields : List (String × Json))

/-- Lookup of a field in a JSON object, first occurrence wins. -/
def lookupField (k : String) : List (String × Json) → Option Json
  | [] => none
  | (k2, v) :: rest => if k = k2 then some v else lookupField k rest

/-- Serialized form of a status value. -/
def statusToString : ItemStatus → String
  | .sealed => "sealed"
  | .opened => "opened"
  | .finished => "finished"
  | .discarded => "discarded"

/-- Parse of a status value from its serialized form. -/
def statusFromString : String → Option ItemStatus
  | "sealed" => some .sealed
  | "opened" => some .opened
  | "finished" => some .finished
  | "discarded" => some .discarded
  | _ => none

/-- An optional field of the item record: `JSON.stringify` drops a property
whose value is `undefined`, so an absent option contributes no field. -/
def optField (k : String) : Option String → List (String × Json)
  | none => []
  | some s => [(k, .str s)]

/-- Serialization of one inventory item, property by property in the order
the `InventoryItem` interface declares them. -/
def encodeItem (i : InventoryItem) : Json :=
  .obj ([("id", .str i.id),
         ("name", .str i.name),
         ("category", .str i.category),
         ("expiryDate", .str i.expiryDate),
         ("receptionDate", .str i.receptionDate),
         ("receptionTemp", .num i.receptionTemp)]
        ++ optField "lotNumber" i.lotNumber
        ++ [("status", .str (statusToString i.status))]
        ++ optField "imageUrl" i.imageUrl
        ++ optField "openedAt" i.openedAt
        ++ optField "finishedAt" i.finishedAt)

/-- Read a required string property. -/
def getStrField (fs : List (String × Json)) (k : String) : Option String :=
  match lookupField k fs with
  | some (.str s) => some s
  | _ => none

/-- Read an optional string property: an absent property parses to `none`,
matching the `undefined` the application sees after `JSON.parse`. -/
def getOptStrField (fs : List (String × Json)) (k : String) :
    Option (Option String) :=
  match lookupField k fs with
  | some (.str s) => some (some s)
  | none => some none
  | some _ => none

/-- Read a required numeric property. -/
def getNumField (fs : List (String × Json)) (k : String) : Option Int :=
  match lookupField k fs with
  | some (.num n) => some n
  | _ => none

/-- Deserialization of one inventory item. -/
def decodeItem : Json → Option InventoryItem
  | .obj fs => do
      let id ← getStrField fs "id"
      let name ← getStrField fs "name"
      let category ← getStrField fs "category"
      let expiryDate ← getStrField fs "expiryDate"
      let receptionDate ← getStrField fs "receptionDate"
      let receptionTemp ← getNumField fs "receptionTemp"
      let lotNumber ← getOptStrField fs "lotNumber"
      let statusStr ← getStrField fs "status"
      let status ← statusFromString statusStr
      let imageUrl ← getOptStrField fs "imageUrl"
      let openedAt ← getOptStrField fs "openedAt"
      let finishedAt ← getOptStrField fs "finishedAt"
      pure { id := id, name := name, category := category,
             expiryDate := expiryDate, receptionDate := receptionDate,
             receptionTemp := receptionTemp, lotNumber := lotNumber,
             status := status, imageUrl := imageUrl, openedAt := openedAt,
             finishedAt := finishedAt }
  | _ => none

/-- Serialization of the whole collection, `JSON.stringify(items)`. -/
def encodeItems (items : List InventoryItem) : Json :=
  .arr (items.map encodeItem)

/-- Deserialization of a list of serialized items. -/
def decodeItemList : List Json → Option (List InventoryItem)
  | [] => some []
  | j :: rest => do
      let i ← decodeItem j
      let is ← decodeItemList rest
      pure (i :: is)

/-- Deserialization of the whole collection, `JSON.parse(savedItems)`. -/
def decodeItems : Json → Option (List InventoryItem)
  | .arr xs => decodeItemList xs
  | _ => none

lemma decodeItem_encodeItem (i : InventoryItem) :
    decodeItem (encodeItem i) = some i := by
  obtain ⟨id, name, category, expiryDate, receptionDate, receptionTemp,
    lotNumber, status, imageUrl, openedAt, finishedAt⟩ := i
  cases lotNumber <;> cases status <;> cases imageUrl <;>
    cases openedAt <;> cases finishedAt <;> rfl

lemma decodeItemList_map (items : List InventoryItem) :
    decodeItemList (items.map encodeItem) = some items := by
  induction items with
  | nil => rfl
  | cons i rest ih =>
      simp [decodeItemList, decodeItem_encodeItem, ih]

/-- Concrete sealed item with both timestamps absent, used to exercise the
lifecycle theorems. -/
def c1Item : InventoryItem :=
  { id := "1", name := "Lait", category := "Laitages",
    expiryDate := "2024-01-05", receptionDate := "2024-01-01",
    receptionTemp := 4, lotNumber := none, status := .sealed,
    imageUrl := none, openedAt := none, finishedAt := none }

/-- Guarded operation sequence: open, finish, restore. -/
def c1Ops : List StockOp :=
  [.setStatus .opened "2024-01-02T08:00:00Z",
   .setStatus .finished "2024-01-03T08:00:00Z",
   .restore]

/-- Unguarded operation sequence: finish, then request `opened` again
directly through `updateItemStatus`. -/
def c1BadOps : List StockOp :=
  [.setStatus .finished "2024-01-03T08:00:00Z",
   .setStatus .opened "2024-01-04T08:00:00Z"]

/-- C1 counterexample: starting from a sealed item with both timestamps
absent, the sequence `updateItemStatus finished` followed by
`updateItemStatus opened` leaves `finishedAt` present while the status is
`opened`, so the invariant fails for an unrestricted operation sequence. -/
theorem c1_invariant_counterexample :
    c1Item.status = .sealed ∧ c1Item.openedAt = none ∧
    c1Item.finishedAt = none ∧ ¬finishedInv (runOps c1Item c1BadOps) := by
  decide

/-- C1 (amended): for an item starting sealed with `openedAt` and
`finishedAt` absent, after any sequence of transition operations in which
`updateItemStatus` is only applied while the status is `sealed` or `opened`
(finished and discarded items are modified only through `restoreItem`, as
the user interface enforces), `finishedAt` is present if and only if the
status is `finished` or `discarded`. -/
theorem c1_finishedAt_invariant (item : InventoryItem) (ops : List StockOp)
    (hs : item.status = .sealed) (hf : item.finishedAt = none)
    (hguard : guardedRun item ops = true) :
    (runOps item ops).finishedAt.isSome = true ↔
      ((runOps item ops).status = .finished ∨
       (runOps item ops).status = .discarded) := by
  have hinv : finishedInv item := by
    unfold finishedInv
    rw [hf, hs]
    simp
  exact finishedInv_runOps ops item hinv hguard

/-- C1 witness: the amended invariant holds for the concrete item and the
guarded open-finish-restore sequence. -/
theorem c1_finishedAt_invariant_witness :
    c1Item.status = .sealed ∧ c1Item.finishedAt = none ∧
    guardedRun c1Item c1Ops = true ∧
    ((runOps c1Item c1Ops).finishedAt.isSome = true ↔
      ((runOps c1Item c1Ops).status = .finished ∨
       (runOps c1Item c1Ops).status = .discarded)) :=
  ⟨by decide, by decide, by decide,
   c1_finishedAt_invariant c1Item c1Ops (by decide) (by decide) (by decide)⟩

/-- C2: restoring a finished or discarded item yields status `opened` when
`openedAt` is set and `sealed` otherwise, clears `finishedAt`, and leaves
every other field unchanged. -/
theorem c2_restore_spec (item : InventoryItem)
    (h : item.status = .finished ∨ item.status = .discarded) :
    (restoreItem item).status =
      (if item.openedAt.isSome then ItemStatus.opened else ItemStatus.sealed) ∧
    (restoreItem item).finishedAt = none ∧
    (restoreItem item).id = item.id ∧
    (restoreItem item).name = item.name ∧
    (restoreItem item).category = item.category ∧
    (restoreItem item).expiryDate = item.expiryDate ∧
    (restoreItem item).receptionDate = item.receptionDate ∧
    (restoreItem item).receptionTemp = item.receptionTemp ∧
    (restoreItem item).lotNumber = item.lotNumber ∧
    (restoreItem item).imageUrl = item.imageUrl ∧
    (restoreItem item).openedAt = item.openedAt :=
  ⟨rfl, rfl, rfl, rfl, rfl, rfl, rfl, rfl, rfl, rfl, rfl⟩

/-- Concrete finished item with `openedAt` set, used to exercise the
restore theorem. -/
def c2Item : InventoryItem :=
  { id := "2", name := "Jambon", category := "Viandes",
    expiryDate := "2024-01-08", receptionDate := "2024-01-01",
    receptionTemp := 3, lotNumber := some "L123", status := .finished,
    imageUrl := none, openedAt := some "2024-01-02T08:00:00Z",
    finishedAt := some "2024-01-03T08:00:00Z" }

/-- C2 witness: the restore specification holds for a concrete finished
item whose `openedAt` is set. -/
theorem c2_restore_spec_witness :
    (c2Item.status = .finished ∨ c2Item.status = .discarded) ∧
    ((restoreItem c2Item).status =
      (if c2Item.openedAt.isSome then ItemStatus.opened else ItemStatus.sealed) ∧
     (restoreItem c2Item).finishedAt = none ∧
     (restoreItem c2Item).id = c2Item.id ∧
     (restoreItem c2Item).name = c2Item.name ∧
     (restoreItem c2Item).category = c2Item.category ∧
     (restoreItem c2Item).expiryDate = c2Item.expiryDate ∧
     (restoreItem c2Item).receptionDate = c2Item.receptionDate ∧
     (restoreItem c2Item).receptionTemp = c2Item.receptionTemp ∧
     (restoreItem c2Item).lotNumber = c2Item.lotNumber ∧
     (restoreItem c2Item).imageUrl = c2Item.imageUrl ∧
     (restoreItem c2Item).openedAt = c2Item.openedAt) :=
  ⟨Or.inl rfl, c2_restore_spec c2Item (Or.inl rfl)⟩

/-- C3: the classifier answers `expired` exactly when the expiry day is
strictly before today, `urgent` exactly when the day difference lies
between 0 and the threshold, and `normal` in every other case. -/
theorem c3_classifier_spec (e n t : Int) :
    (classify e n t = .expired ↔ e < n) ∧
    (classify e n t = .urgent ↔ (0 ≤ e - n ∧ e - n ≤ t)) ∧
    (classify e n t = .normal ↔
      (¬(e < n) ∧ ¬(0 ≤ e - n ∧ e - n ≤ t))) :=
  ⟨classify_expired_iff e n t, classify_urgent_iff e n t,
   classify_normal_iff e n t⟩

/-- C4: an item expiring 2024-01-05 is urgent and not expired on
2024-01-05 with threshold 3, and expired on 2024-01-06. -/
theorem c4_scenario :
    classify (daysFromCivil 2024 1 5) (daysFromCivil 2024 1 5) 3 = .urgent ∧
    isExpired (daysFromCivil 2024 1 5) (daysFromCivil 2024 1 5) = false ∧
    isUrgent (daysFromCivil 2024 1 5) (daysFromCivil 2024 1 5) 3 = true ∧
    classify (daysFromCivil 2024 1 5) (daysFromCivil 2024 1 6) 3 = .expired := by
  decide

/-- C5: with a fixed expiry day and threshold, when the classification at a
later current day is `normal`, moving the current day earlier never gives
`expired`. -/
theorem c5_monotone (e t d1 d2 : Int) (hle : d1 ≤ d2)
    (hnorm : classify e d2 t = .normal) : classify e d1 t ≠ .expired := by
  intro hexp
  have h2 := (classify_normal_iff e d2 t).mp hnorm
  have h1 := (classify_expired_iff e d1 t).mp hexp
  omega

/-- C5 witness: expiry day 10, threshold 3; day 5 classifies as normal and
day 4 is not expired. -/
theorem c5_monotone_witness :
    (4 : Int) ≤ 5 ∧ classify 10 5 3 = .normal ∧ classify 10 4 3 ≠ .expired :=
  ⟨by decide, by decide, c5_monotone 10 3 4 5 (by decide) (by decide)⟩

/-- C6: the merge of an extraction result into the form updates exactly the
populated fields, leaves every unpopulated field at its previous value and
every other form field untouched; in particular an extraction carrying only
the name Yaourt only replaces the name. -/
theorem c6_merge_spec (prev : FormData) (r : ExtractionResult) :
    ((mergeExtraction prev r).name =
        if populated r.name = true then r.name.getD "" else prev.name) ∧
    ((mergeExtraction prev r).category =
        if populated r.category = true then r.category.getD "" else prev.category) ∧
    ((mergeExtraction prev r).lotNumber =
        if populated r.lotNumber = true then r.lotNumber.getD "" else prev.lotNumber) ∧
    ((mergeExtraction prev r).expiryDate =
        if populated r.expiryDate = true then r.expiryDate.getD "" else prev.expiryDate) ∧
    (mergeExtraction prev r).receptionDate = prev.receptionDate ∧
    (mergeExtraction prev r).receptionTemp = prev.receptionTemp ∧
    mergeExtraction prev ⟨some "Yaourt", none, none, none⟩ =
      { prev with name := "Yaourt" } :=
  ⟨jsOrStr_eq_ite r.name prev.name, jsOrStr_eq_ite r.category prev.category,
   jsOrStr_eq_ite r.lotNumber prev.lotNumber,
   jsOrStr_eq_ite r.expiryDate prev.expiryDate, rfl, rfl, rfl⟩

/-- C7: a manual submission whose name or expiry date is empty is rejected
with the alert message and leaves the item store exactly as it was. -/
theorem c7_submit_rejects (form : FormData) (tempImage : Option String)
    (store : List InventoryItem) (newId now : String)
    (h : form.name = "" ∨ form.expiryDate = "") :
    handleSubmit form tempImage store newId now =
      (store, some "Nom et DLC obligatoires.") := by
  unfold handleSubmit
  rw [if_pos h]

/-- Concrete form state with an empty name, used to exercise the submit
theorem. -/
def c7Form : FormData :=
  { name := "", category := "Autres", expiryDate := "2024-01-05",
    receptionDate := "2024-01-01", receptionTemp := 4, lotNumber := "" }

/-- C7 witness: submitting the concrete empty-name form over an empty store
returns the untouched store and the alert message. -/
theorem c7_submit_rejects_witness :
    (c7Form.name = "" ∨ c7Form.expiryDate = "") ∧
    handleSubmit c7Form none [] "id1" "2024-01-02T08:00:00Z" =
      ([], some "Nom et DLC obligatoires.") :=
  ⟨Or.inl rfl,
   c7_submit_rejects c7Form none [] "id1" "2024-01-02T08:00:00Z" (Or.inl rfl)⟩

/-- C8: serializing the item collection to its persisted form and
deserializing it back yields the original collection, field for field. -/
theorem c8_roundtrip (items : List InventoryItem) :
    decodeItems (encodeItems items) = some items := by
  unfold encodeItems decodeItems
  exact decodeItemList_map items

/-- C10: the collection driving the header badge and the browser
notification holds exactly the items that are neither finished nor
discarded and whose rounded-up day count until expiry is at most the
threshold; in particular already-expired items qualify and closed items
never do. -/
theorem c10_urgentItems_mem (toTime : String → Int)
    (items : List InventoryItem) (now threshold : Int) (i : InventoryItem) :
    i ∈ urgentItems toTime items now threshold ↔
      (i ∈ items ∧ ¬(i.status = .finished ∨ i.status = .discarded) ∧
        diffDaysRaw (toTime i.expiryDate) now ≤ threshold) := by
  simp only [urgentItems, List.mem_filter]
  by_cases hst : (i.status = .finished ∨ i.status = .discarded)
  · simp [hst]
  · simp [hst]

/-- C9: the status transition writes the current time into `openedAt`
exactly on a request for `opened`, clears `openedAt` exactly on a request
for `sealed`, and leaves `openedAt` untouched on a request for `finished`
or `discarded`, so the opening time persists into the closed states. -/
theorem c9_openedAt_spec (item : InventoryItem) (s : ItemStatus)
    (now : String) :
    (updateItemStatus item s now).openedAt =
      (match s with
       | .opened => some now
       | .sealed => none
       | .finished => item.openedAt
       | .discarded => item.openedAt) := by
  cases s <;> rfl
